import Mathlib

/-!
# Verification of the Forever Chat tool-invocation and approval core

Shallow embedding of the tool registry, approval gate, tool executor,
conversation-assembler loop and message-pruning step of the
`visatk/assistant` repository (main source: `src/server.ts`), together
with proofs of the spec claims about them.

JavaScript numbers are modelled as exact rationals extended with a NaN
element (`JsNum`); the only number-to-string conversions the program's
claims exercise are on integral values, where ECMAScript formatting
agrees with the integer decimal representation used here.
-/

namespace ForeverChat

/-- The five arithmetic operators accepted by the `calculate` tool's input
schema (`z.enum(["+", "-", "*", "/", "%"])`, `src/server.ts`). -/
inductive Op where
  | plus
  | minus
  | times
  | div
  | mod
deriving DecidableEq, Repr

/-- The operator's surface syntax, as it appears in the schema and in the
template literal building the `expression` field. -/
def Op.symbol : Op → String
  | .plus => "+"
  | .minus => "-"
  | .times => "*"
  | .div => "/"
  | .mod => "%"

/-- A JavaScript number produced by the arithmetic in `calculate.execute`:
either a finite value (modelled exactly as a rational) or NaN.  Inputs are
finite (they arrive as JSON numbers through `z.number()`). -/
inductive JsNum where
  | num (q : ℚ)
  | nan
deriving DecidableEq, Repr

/-- Model of `Math.abs` on a finite number. -/
def jsAbs (q : ℚ) : ℚ := if q < 0 then -q else q

/-- ECMAScript truncation toward zero, used by the `%` remainder. -/
def jsTrunc (q : ℚ) : ℤ := if 0 ≤ q then ⌊q⌋ else ⌈q⌉

/-- The ECMAScript `%` remainder operator: `x % 0` is NaN; otherwise the
remainder has the sign of the dividend, `x - y * trunc(x / y)`. -/
def jsRem (x y : ℚ) : JsNum :=
  if y = 0 then .nan else .num (x - y * (jsTrunc (x / y) : ℚ))

/-- ECMAScript number-to-string conversion, on the integral values the
claims exercise; non-integral rationals are rendered in Lean's own
notation, a divergence no claim touches. -/
def jsNumberToString (q : ℚ) : String :=
  if q.den = 1 then toString q.num else toString q

/-- Validated input of the `calculate` tool
(`{a: number, b: number, operator: enum}`, `src/server.ts`). -/
structure CalcInput where
  a : ℚ
  b : ℚ
  operator : Op
deriving DecidableEq, Repr

/-- Result payload of the `calculate` executor: either the
`{expression, result}` object or the structured `{error}` object. -/
inductive CalcOutput where
  | payload (expression : String) (result : JsNum)
  | error (msg : String)
deriving DecidableEq, Repr

namespace Calculate

/-- Source `calculate.needsApproval` (`src/server.ts` lines 80–81):
`Math.abs(a) > 1000 || Math.abs(b) > 1000`. -/
def needsApproval (inp : CalcInput) : Bool :=
  decide (1000 < jsAbs inp.a) || decide (1000 < jsAbs inp.b)

/-- The `ops` dispatch table inside `calculate.execute`
(`src/server.ts` lines 83–89). -/
def ops : Op → ℚ → ℚ → JsNum
  | .plus, x, y => .num (x + y)
  | .minus, x, y => .num (x - y)
  | .times, x, y => .num (x * y)
  | .div, x, y => .num (x / y)
  | .mod, x, y => jsRem x y

/-- The `expression` template literal of the success payload. -/
def expressionString (inp : CalcInput) : String :=
  jsNumberToString inp.a ++ " " ++ inp.operator.symbol ++ " " ++
    jsNumberToString inp.b

/-- Source `calculate.execute` (`src/server.ts` lines 82–97): guards division by a
zero divisor, otherwise dispatches through the `ops` table. -/
def execute (inp : CalcInput) : CalcOutput :=
  if inp.operator = .div ∧ inp.b = 0 then
    .error "Division by zero"
  else
    .payload (expressionString inp) (ops inp.operator inp.a inp.b)

end Calculate

/-- The three registered tool names (`tools` record in `streamText`,
`src/server.ts`). -/
inductive ToolName where
  | getWeather
  | getUserTimezone
  | calculate
deriving DecidableEq, Repr

/-- Validated input of a tool call, per the three declared input schemas. -/
inductive ToolInput where
  | weather (city : String)
  | timezone
  | calc (inp : CalcInput)
deriving DecidableEq, Repr

/-- The per-tool approval predicates as registered in `src/server.ts`: only
`calculate` declares a `needsApproval`; `getWeather` and `getUserTimezone`
declare none. -/
def approvalPredicate : ToolName → Option (ToolInput → Bool)
  | .getWeather => none
  | .getUserTimezone => none
  | .calculate => some fun i =>
      match i with
      | .calc inp => Calculate.needsApproval inp
      | _ => false

/-- Modelled from the spec: the approval gate `requiresApproval(toolName,
input)` of §4.2 — the gate dispatcher itself lives in the external chat SDK,
not under src/.  A tool with no `approvalPredicate` never requires approval;
otherwise the gate returns the predicate's value on the validated input.
The predicates themselves are the source's (`approvalPredicate`). -/
def requiresApproval (t : ToolName) (i : ToolInput) : Bool :=
  match approvalPredicate t with
  | none => false
  | some p => p i

/-- The fixed `conditions` array in `getWeather.execute` (`src/server.ts`). -/
def conditions : List String := ["sunny", "cloudy", "rainy", "snowy"]

/-- Output object of `getWeather.execute`.  The `condition` field models the
JavaScript array indexing `conditions[...]`, which yields `undefined`
(`none`) when the index is out of range. -/
structure WeatherOutput where
  city : String
  temperature : ℤ
  condition : Option String
  unit : String
deriving DecidableEq, Repr

namespace GetWeather

/-- Source `getWeather.execute` (`src/server.ts` lines 50–61), with the two
`Math.random()` draws passed explicitly: `r1` for the temperature
(`Math.floor(Math.random() * 30) + 5`) and `r2` for the condition index
(`Math.floor(Math.random() * conditions.length)`).  Each draw of
`Math.random()` lies in `[0, 1)`. -/
def execute (city : String) (r1 r2 : ℚ) : WeatherOutput :=
  { city := city
    temperature := ⌊r1 * 30⌋ + 5
    condition := conditions.get? (⌊r2 * (conditions.length : ℚ)⌋).toNat
    unit := "celsius" }

end GetWeather

theorem jsAbs_eq_abs (q : ℚ) : jsAbs q = |q| := by
  unfold jsAbs
  split
  · exact (abs_of_neg (by assumption)).symm
  · exact (abs_of_nonneg (le_of_not_lt (by assumption))).symm

/-- The six ToolCall states of the spec's data model (§3); these are also the
`part.state` values the client renders (`src/client.tsx`). -/
inductive CallState where
  | inputStreaming
  | inputAvailable
  | approvalRequested
  | approved
  | rejected
  | outputAvailable
deriving DecidableEq, Repr

/-- Modelled from the spec: the result folded back into the conversation for
one tool call (§4.3) — either the executor's output, or the synthetic
"call was denied" marker folded for a rejected call.  The folding machinery
lives in the external chat SDK, not under src/. -/
inductive FoldedResult (α : Type) where
  | output (o : α)
  | denied
deriving DecidableEq, Repr

/-- Modelled from the spec: bookkeeping for one ToolCall as it moves through
the life cycle (§3, §4.2, §4.3).  `execCount` counts invocations of the
tool's executor for this call; `visitedApprovalRequested` and
`wentThroughApproved` record whether the call was ever in those states;
`folded` is the result folded into the conversation, if any. -/
structure CallRecord (α : Type) where
  state : CallState
  execCount : ℕ
  visitedApprovalRequested : Bool
  wentThroughApproved : Bool
  folded : Option (FoldedResult α)
deriving DecidableEq, Repr

/-- A freshly proposed tool call, before its arguments finish streaming. -/
def initCall (α : Type) : CallRecord α :=
  { state := .inputStreaming
    execCount := 0
    visitedApprovalRequested := false
    wentThroughApproved := false
    folded := none }

/-- Modelled from the spec: the ToolCall state machine of §4.2–§4.3 (the
machinery lives in the external chat SDK, not under src/), parametrised by
the gate's decision `needed` (the value of `requiresApproval` on this call,
fixed across the call because the gate is pure) and by the executor's
`result` for this call:
  * arguments finish streaming: `input-streaming` → `input-available`;
  * gate true: `input-available` → `approval-requested`;
  * gate false: `input-available` → `output-available`, invoking the
    executor once and folding its output;
  * `resolveApproval(id, true)`: `approval-requested` → `approved`;
  * `resolveApproval(id, false)`: `approval-requested` → `rejected`,
    folding the synthetic denial marker without invoking the executor;
  * an `approved` call executes: `approved` → `output-available`. -/
inductive CallStep {α : Type} (needed : Bool) (result : α) :
    CallRecord α → CallRecord α → Prop where
  | stream (c : CallRecord α) :
      c.state = .inputStreaming →
      CallStep needed result c { c with state := .inputAvailable }
  | gateRequest (c : CallRecord α) :
      c.state = .inputAvailable → needed = true →
      CallStep needed result c
        { c with
          state := .approvalRequested
          visitedApprovalRequested := true }
  | gateExec (c : CallRecord α) :
      c.state = .inputAvailable → needed = false →
      CallStep needed result c
        { c with
          state := .outputAvailable
          execCount := c.execCount + 1
          folded := some (.output result) }
  | approve (c : CallRecord α) :
      c.state = .approvalRequested →
      CallStep needed result c
        { c with
          state := .approved
          wentThroughApproved := true }
  | reject (c : CallRecord α) :
      c.state = .approvalRequested →
      CallStep needed result c
        { c with
          state := .rejected
          folded := some .denied }
  | runApproved (c : CallRecord α) :
      c.state = .approved →
      CallStep needed result c
        { c with
          state := .outputAvailable
          execCount := c.execCount + 1
          folded := some (.output result) }

/-- Call records reachable from a fresh call. -/
def ReachableCall {α : Type} (needed : Bool) (result : α)
    (c : CallRecord α) : Prop :=
  Relation.ReflTransGen (CallStep needed result) (initCall α) c

/-- The inductive invariant of the call life cycle: the executor has not run
unless the call reached `output-available`; an `approved` call is flagged as
such; `output-available` is reached only with the gate off or through
`approved`; and when the gate is off, `approval-requested` is never visited. -/
theorem callInvariant {α : Type} {needed : Bool} {result : α}
    {c : CallRecord α} (h : ReachableCall needed result c) :
    (c.state ≠ .outputAvailable → c.execCount = 0) ∧
    (c.state = .approved → c.wentThroughApproved = true) ∧
    (c.state = .outputAvailable →
      needed = false ∨ c.wentThroughApproved = true) ∧
    (needed = false → c.visitedApprovalRequested = false) := by
  induction h with
  | refl => simp [initCall]
  | tail _ hstep ih => cases hstep <;> simp_all

/-- A call that was gated, then rejected by the operator. -/
def rejectedDemo : CallRecord ℕ :=
  { state := .rejected
    execCount := 0
    visitedApprovalRequested := true
    wentThroughApproved := false
    folded := some .denied }

theorem rejectedDemo_reachable : ReachableCall true (0 : ℕ) rejectedDemo :=
  Relation.ReflTransGen.tail
    (Relation.ReflTransGen.tail
      (Relation.ReflTransGen.single (.stream _ rfl))
      (.gateRequest _ rfl rfl))
    (.reject _ rfl)

/-- A tool-call part retained verbatim: the call's full detail. -/
structure ToolCallDetail where
  toolName : String
  callId : String
  inputJson : String
  outputJson : String
deriving DecidableEq, Repr

/-- The kinds of message parts the retention policy distinguishes (§3,
§4.4): text segments, full tool-call detail, the compact marker an older
tool call is collapsed to, and reasoning segments. -/
inductive MessagePart where
  | text (s : String)
  | toolCall (d : ToolCallDetail)
  | toolMarker (toolName : String)
  | reasoning (s : String)
deriving DecidableEq, Repr

/-- Message roles of the spec's data model (§3). -/
inductive Role where
  | user
  | assistant
  | system
deriving DecidableEq, Repr

/-- A conversation message: an id, a role, and an ordered list of parts. -/
structure ConversationMessage where
  id : String
  role : Role
  parts : List MessagePart
deriving DecidableEq, Repr

/-- Placeholder used as the out-of-range default of `List.getD`. -/
def defaultMsg : ConversationMessage := ⟨"", .user, []⟩

/-- Modelled from the spec: the per-part retention rule configured by
`pruneMessages({toolCalls: "before-last-2-messages", reasoning:
"before-last-message"})` in `src/server.ts` (the pruning function itself
lives in the external `ai` SDK, not under src/).  With `n` messages in the
history and `i` the message's index: a tool-call part in one of the last
two messages is kept verbatim, and otherwise collapsed to its compact
marker; a reasoning part is kept only in the last message and dropped
elsewhere; every other part is kept unchanged. -/
def prunePart (n i : ℕ) : MessagePart → Option MessagePart
  | .toolCall d =>
    some (if n ≤ i + 2 then .toolCall d else .toolMarker d.toolName)
  | .reasoning s => if i + 1 = n then some (.reasoning s) else none
  | .text s => some (.text s)
  | .toolMarker t => some (.toolMarker t)

/-- The retention rule applied to each message of a suffix of the history,
`i` being the index of the suffix's first message. -/
def pruneFrom (n : ℕ) : ℕ → List ConversationMessage → List ConversationMessage
  | _, [] => []
  | i, m :: ms =>
    { m with parts := m.parts.filterMap (prunePart n i) } ::
      pruneFrom n (i + 1) ms

/-- Modelled from the spec: the message-pruning step applied when building
the next model input (§4.4). -/
def pruneMessages (msgs : List ConversationMessage) :
    List ConversationMessage :=
  pruneFrom msgs.length 0 msgs

/-- The identity of a part surviving pruning: collapsing a tool call to its
compact marker keeps the tool's name, so both carry the same tag. -/
inductive PartTag where
  | text (s : String)
  | tool (toolName : String)
  | reasoning (s : String)
deriving DecidableEq, Repr

/-- The tag of a message part. -/
def tagOf : MessagePart → PartTag
  | .text s => .text s
  | .toolCall d => .tool d.toolName
  | .toolMarker t => .tool t
  | .reasoning s => .reasoning s

theorem pruneFrom_length (n : ℕ) :
    ∀ (ms : List ConversationMessage) (i : ℕ),
      (pruneFrom n i ms).length = ms.length := by
  intro ms
  induction ms with
  | nil => intro i; rfl
  | cons m t ih => intro i; simp [pruneFrom, ih]

theorem pruneFrom_getD (n : ℕ) :
    ∀ (ms : List ConversationMessage) (i j : ℕ), j < ms.length →
      (pruneFrom n i ms).getD j defaultMsg =
        { ms.getD j defaultMsg with
          parts :=
            (ms.getD j defaultMsg).parts.filterMap (prunePart n (i + j)) } := by
  intro ms
  induction ms with
  | nil => intro i j h; cases h
  | cons m t ih =>
    intro i j hj
    cases j with
    | zero => simp [pruneFrom]
    | succ j =>
      have h := ih (i + 1) j (by simpa using hj)
      have hidx : i + 1 + j = i + (j + 1) := by omega
      rw [hidx] at h
      simpa [pruneFrom] using h

theorem prunePart_tag {n i : ℕ} {p q : MessagePart}
    (h : prunePart n i p = some q) : tagOf q = tagOf p := by
  cases p with
  | text s =>
    simp only [prunePart, Option.some.injEq] at h
    subst h
    rfl
  | toolCall d =>
    simp only [prunePart, Option.some.injEq] at h
    subst h
    split <;> rfl
  | toolMarker t =>
    simp only [prunePart, Option.some.injEq] at h
    subst h
    rfl
  | reasoning s =>
    rw [prunePart] at h
    split at h
    · simp only [Option.some.injEq] at h
      subst h
      rfl
    · cases h

theorem filterMap_tag_sublist (n i : ℕ) (l : List MessagePart) :
    ((l.filterMap (prunePart n i)).map tagOf).Sublist (l.map tagOf) := by
  induction l with
  | nil => simp
  | cons p t ih =>
    rw [List.filterMap_cons]
    cases hf : prunePart n i p with
    | none =>
      rw [List.map_cons]
      exact ih.cons _
    | some q =>
      rw [List.map_cons, List.map_cons, prunePart_tag hf]
      exact ih.cons₂ _

theorem toolCall_mem_filterMap {n i : ℕ} {l : List MessagePart}
    {d : ToolCallDetail} :
    (MessagePart.toolCall d) ∈ l.filterMap (prunePart n i) ↔
      n ≤ i + 2 ∧ (MessagePart.toolCall d) ∈ l := by
  rw [List.mem_filterMap]
  constructor
  · rintro ⟨p, hp, hq⟩
    cases p with
    | text s => simp [prunePart] at hq
    | toolMarker t => simp [prunePart] at hq
    | reasoning s =>
      rw [prunePart] at hq
      split at hq
      · simp at hq
      · cases hq
    | toolCall e =>
      simp only [prunePart, Option.some.injEq] at hq
      split at hq
      · cases hq
        exact ⟨by assumption, hp⟩
      · cases hq
  · rintro ⟨hle, hp⟩
    exact ⟨.toolCall d, hp, by simp [prunePart, if_pos hle]⟩

theorem toolMarker_mem_filterMap_of {n i : ℕ} {l : List MessagePart}
    {d : ToolCallDetail} (hgt : i + 2 < n)
    (hp : (MessagePart.toolCall d) ∈ l) :
    (MessagePart.toolMarker d.toolName) ∈ l.filterMap (prunePart n i) := by
  rw [List.mem_filterMap]
  exact ⟨.toolCall d, hp, by simp [prunePart, if_neg (by omega : ¬ n ≤ i + 2)]⟩

theorem reasoning_mem_filterMap {n i : ℕ} {l : List MessagePart}
    {s : String} :
    (MessagePart.reasoning s) ∈ l.filterMap (prunePart n i) ↔
      i + 1 = n ∧ (MessagePart.reasoning s) ∈ l := by
  rw [List.mem_filterMap]
  constructor
  · rintro ⟨p, hp, hq⟩
    cases p with
    | text t => simp [prunePart] at hq
    | toolMarker t => simp [prunePart] at hq
    | toolCall e =>
      simp only [prunePart, Option.some.injEq] at hq
      split at hq <;> cases hq
    | reasoning t =>
      rw [prunePart] at hq
      split at hq
      · simp only [Option.some.injEq] at hq
        cases hq
        exact ⟨by assumption, hp⟩
      · cases hq
  · rintro ⟨heq, hp⟩
    exact ⟨.reasoning s, hp, by simp [prunePart, if_pos heq]⟩

/-- A concrete tool-call detail used to exercise the pruning step. -/
def demoDetail : ToolCallDetail :=
  ⟨"calculate", "call-1", "input-json", "output-json"⟩

/-- A concrete three-message history with tool calls and reasoning. -/
def demoMsgs : List ConversationMessage :=
  [⟨"m0", .assistant, [.text "a", .toolCall demoDetail, .reasoning "r0"]⟩,
   ⟨"m1", .user, [.text "b"]⟩,
   ⟨"m2", .assistant, [.toolCall demoDetail, .reasoning "r2"]⟩]

/-- The StreamingSession statuses of the spec's data model (§3). -/
inductive TurnStatus where
  | idle
  | streaming
  | awaitingApproval
  | error
  | done
deriving DecidableEq, Repr

/-- StreamingSession bookkeeping for one user turn (§3). -/
structure TurnState where
  stepCount : ℕ
  status : TurnStatus
deriving DecidableEq, Repr

/-- The step cap fixed by `stopWhen: stepCountIs(5)` (`src/server.ts`). -/
def maxSteps : ℕ := 5

/-- Modelled from the spec: the bounded generation loop of §4.4 (the loop
itself lives in the external `ai` SDK; src/ only configures its stop
condition).  `proposes k` says whether the model's (k+1)-st generation step
proposes further tool calls; `fuel` is how many more steps the cap allows
and `count` how many steps were already taken.  Each iteration runs one
generation step; the turn ends, normally with status `done`, as soon as a
step proposes no tool calls or the cap is reached. -/
def runTurnAux (proposes : ℕ → Bool) : ℕ → ℕ → TurnState
  | 0, count => ⟨count, .done⟩
  | fuel + 1, count =>
    if proposes count then runTurnAux proposes fuel (count + 1)
    else ⟨count + 1, .done⟩

/-- A whole turn: the loop started fresh with `maxSteps` steps of fuel. -/
def runTurn (proposes : ℕ → Bool) : TurnState :=
  runTurnAux proposes maxSteps 0

theorem runTurnAux_spec (p : ℕ → Bool) :
    ∀ fuel count, (runTurnAux p fuel count).stepCount ≤ count + fuel ∧
      (runTurnAux p fuel count).status = .done := by
  intro fuel
  induction fuel with
  | zero => intro count; simp [runTurnAux]
  | succ fuel ih =>
    intro count
    rw [runTurnAux]
    split
    · have h := ih (count + 1)
      exact ⟨h.1.trans (by omega), h.2⟩
    · exact ⟨by show count + 1 ≤ count + (fuel + 1); omega, rfl⟩

end ForeverChat

open ForeverChat

/-- C1: `calculate.needsApproval` returns true iff the absolute value of at
least one operand exceeds 1000; in particular it is true on
`{a: 5000, b: 2, operator: "+"}`, and false whenever both `|a| ≤ 1000` and
`|b| ≤ 1000`, regardless of the operator. -/
theorem spec_C1 :
    Calculate.needsApproval ⟨5000, 2, .plus⟩ = true ∧
    (∀ inp : CalcInput,
      Calculate.needsApproval inp = true ↔ 1000 < |inp.a| ∨ 1000 < |inp.b|) ∧
    (∀ inp : CalcInput, |inp.a| ≤ 1000 → |inp.b| ≤ 1000 →
      Calculate.needsApproval inp = false) := by
  have hiff : ∀ inp : CalcInput,
      Calculate.needsApproval inp = true ↔ 1000 < |inp.a| ∨ 1000 < |inp.b| := by
    intro inp
    simp [Calculate.needsApproval, jsAbs_eq_abs]
  refine ⟨by decide, hiff, ?_⟩
  intro inp ha hb
  rw [Bool.eq_false_iff]
  intro h
  rcases (hiff inp).mp h with h1 | h1
  · exact absurd ha (not_le.mpr h1)
  · exact absurd hb (not_le.mpr h1)

/-- Witness for C1 at a boundary input: both operands have absolute value
exactly 1000, so no approval is required even for multiplication. -/
theorem spec_C1_witness :
    Calculate.needsApproval ⟨1000, -1000, .times⟩ = false :=
  spec_C1.2.2 ⟨1000, -1000, .times⟩ (by simp) (by simp)

/-- C2: the `calculate` executor on operator `/` with divisor 0 returns the
structured payload `{error: "Division by zero"}` for every dividend, never a
numeric-result payload; in particular on `{a: 10, b: 0, operator: "/"}`. -/
theorem spec_C2 :
    (∀ a : ℚ, Calculate.execute ⟨a, 0, .div⟩ = .error "Division by zero") ∧
    Calculate.execute ⟨10, 0, .div⟩ = .error "Division by zero" := by
  constructor
  · intro a
    simp [Calculate.execute]
  · decide

/-- C8: the approval gate is a pure, deterministic function of the tool name
and the validated input — two evaluations on identical pairs agree. -/
theorem spec_C8 (t₁ t₂ : ToolName) (i₁ i₂ : ToolInput)
    (ht : t₁ = t₂) (hi : i₁ = i₂) :
    requiresApproval t₁ i₁ = requiresApproval t₂ i₂ := by
  subst ht
  subst hi
  rfl

/-- Witness for C8 at a concrete (toolName, input) pair. -/
theorem spec_C8_witness :
    requiresApproval .calculate (.calc ⟨5000, 2, .plus⟩) =
      requiresApproval .calculate (.calc ⟨5000, 2, .plus⟩) :=
  spec_C8 .calculate .calculate (.calc ⟨5000, 2, .plus⟩)
    (.calc ⟨5000, 2, .plus⟩) rfl rfl

/-- C9: the zero-divisor guard applies only to `/`: on operator `%` with
`b = 0` the executor returns an `{expression, result}` payload whose result
is NaN, never an `{error}` payload; in particular on
`{a: 10, b: 0, operator: "%"}` it returns `{expression: "10 % 0", result: NaN}`. -/
theorem spec_C9 :
    (∀ a : ℚ, Calculate.execute ⟨a, 0, .mod⟩ =
      .payload (Calculate.expressionString ⟨a, 0, .mod⟩) .nan) ∧
    Calculate.execute ⟨10, 0, .mod⟩ = .payload "10 % 0" .nan := by
  constructor
  · intro a
    simp [Calculate.execute, Calculate.ops, jsRem]
  · decide

/-- C7: the pruning step preserves the number, ids and roles of the
messages; tool-call detail is kept verbatim exactly in the most recent two
messages and older tool-call parts are collapsed to their compact markers;
reasoning parts survive only in the most recent message; and the parts that
remain are never reordered (their tag sequence is a sublist of the
original). -/
theorem spec_C7 (msgs : List ConversationMessage) (i : ℕ)
    (h : i < msgs.length) :
    (pruneMessages msgs).length = msgs.length ∧
    (msgs.length ≤ i + 2 →
      ∀ d : ToolCallDetail,
        MessagePart.toolCall d ∈
            ((pruneMessages msgs).getD i defaultMsg).parts ↔
          MessagePart.toolCall d ∈ (msgs.getD i defaultMsg).parts) ∧
    (i + 2 < msgs.length →
      (∀ d : ToolCallDetail,
        MessagePart.toolCall d ∉
          ((pruneMessages msgs).getD i defaultMsg).parts) ∧
      (∀ d : ToolCallDetail,
        MessagePart.toolCall d ∈ (msgs.getD i defaultMsg).parts →
          MessagePart.toolMarker d.toolName ∈
            ((pruneMessages msgs).getD i defaultMsg).parts)) ∧
    (i + 1 < msgs.length →
      ∀ s : String,
        MessagePart.reasoning s ∉
          ((pruneMessages msgs).getD i defaultMsg).parts) ∧
    (i + 1 = msgs.length →
      ∀ s : String,
        MessagePart.reasoning s ∈
            ((pruneMessages msgs).getD i defaultMsg).parts ↔
          MessagePart.reasoning s ∈ (msgs.getD i defaultMsg).parts) ∧
    (((pruneMessages msgs).getD i defaultMsg).parts.map tagOf).Sublist
      ((msgs.getD i defaultMsg).parts.map tagOf) ∧
    ((pruneMessages msgs).getD i defaultMsg).id =
      (msgs.getD i defaultMsg).id ∧
    ((pruneMessages msgs).getD i defaultMsg).role =
      (msgs.getD i defaultMsg).role := by
  have key : (pruneMessages msgs).getD i defaultMsg =
      { msgs.getD i defaultMsg with
        parts := (msgs.getD i defaultMsg).parts.filterMap
          (prunePart msgs.length i) } := by
    have hk := pruneFrom_getD msgs.length msgs 0 i h
    simpa [pruneMessages] using hk
  rw [key]
  dsimp only
  refine ⟨pruneFrom_length _ _ _, ?_, ?_, ?_, ?_,
    filterMap_tag_sublist _ _ _, rfl, rfl⟩
  · intro hle d
    rw [toolCall_mem_filterMap]
    exact and_iff_right hle
  · intro hgt
    refine ⟨?_, fun d hd => toolMarker_mem_filterMap_of hgt hd⟩
    intro d hd
    have := (toolCall_mem_filterMap.mp hd).1
    omega
  · intro hlt s hs
    have := (reasoning_mem_filterMap.mp hs).1
    omega
  · intro heq s
    rw [reasoning_mem_filterMap]
    exact and_iff_right heq

/-- Witness for C7 on a concrete three-message history: in the oldest
message the tool call is collapsed to its marker and the reasoning part is
dropped. -/
theorem spec_C7_witness :
    MessagePart.toolCall demoDetail ∉
      ((pruneMessages demoMsgs).getD 0 defaultMsg).parts ∧
    MessagePart.toolMarker "calculate" ∈
      ((pruneMessages demoMsgs).getD 0 defaultMsg).parts ∧
    MessagePart.reasoning "r0" ∉
      ((pruneMessages demoMsgs).getD 0 defaultMsg).parts := by
  have h := spec_C7 demoMsgs 0 (by decide)
  exact ⟨(h.2.2.1 (by decide)).1 demoDetail,
    (h.2.2.1 (by decide)).2 demoDetail (by decide),
    h.2.2.2.1 (by decide) "r0"⟩

/-- C10: the `getWeather` executor never returns an error payload: for every
city and every outcome of its two random draws in `[0, 1)`, it returns the
given city, an integer temperature between 5 and 34 inclusive, a condition
drawn from the fixed four-element `conditions` array, and unit `"celsius"`. -/
theorem spec_C10 (city : String) (r1 r2 : ℚ)
    (h1 : 0 ≤ r1) (h1' : r1 < 1) (h2 : 0 ≤ r2) (h2' : r2 < 1) :
    (GetWeather.execute city r1 r2).city = city ∧
    5 ≤ (GetWeather.execute city r1 r2).temperature ∧
    (GetWeather.execute city r1 r2).temperature ≤ 34 ∧
    (∃ c, (GetWeather.execute city r1 r2).condition = some c ∧
      c ∈ conditions) ∧
    (GetWeather.execute city r1 r2).unit = "celsius" := by
  have hlo : (0 : ℤ) ≤ ⌊r1 * 30⌋ :=
    Int.floor_nonneg.mpr (mul_nonneg h1 (by norm_num))
  have hhi : ⌊r1 * 30⌋ < 30 := by
    rw [Int.floor_lt]
    push_cast
    nlinarith
  have hflo : (0 : ℤ) ≤ ⌊r2 * (conditions.length : ℚ)⌋ :=
    Int.floor_nonneg.mpr (mul_nonneg h2 (by positivity))
  have hfhi : ⌊r2 * (conditions.length : ℚ)⌋ < 4 := by
    rw [Int.floor_lt]
    have : (conditions.length : ℚ) = 4 := by norm_num [conditions]
    rw [this]
    push_cast
    nlinarith
  refine ⟨rfl, ?_, ?_, ?_, rfl⟩
  · show 5 ≤ ⌊r1 * 30⌋ + 5
    omega
  · show ⌊r1 * 30⌋ + 5 ≤ 34
    omega
  · show ∃ c,
      conditions.get? (⌊r2 * (conditions.length : ℚ)⌋).toNat = some c ∧
        c ∈ conditions
    have hn : (⌊r2 * (conditions.length : ℚ)⌋).toNat < 4 := by omega
    set n := (⌊r2 * (conditions.length : ℚ)⌋).toNat with hdef
    clear_value n
    interval_cases n <;> exact ⟨_, rfl, by decide⟩

/-- C3: on `{a: 5000, b: 2, operator: "+"}` the gate fires; resolving the
approval with `approved = true` lets the call execute, yielding exactly
`{expression: "5000 + 2", result: 5002}`; resolving with `approved = false`
leaves the executor uninvoked and folds the denial marker instead —
moreover every reachable rejected call record for this input has executor
call count 0. -/
theorem spec_C3 :
    requiresApproval .calculate (.calc ⟨5000, 2, .plus⟩) = true ∧
    Calculate.execute ⟨5000, 2, .plus⟩ = .payload "5000 + 2" (.num 5002) ∧
    (∃ c : CallRecord CalcOutput,
      ReachableCall (requiresApproval .calculate (.calc ⟨5000, 2, .plus⟩))
        (Calculate.execute ⟨5000, 2, .plus⟩) c ∧
      c.state = .outputAvailable ∧ c.wentThroughApproved = true ∧
      c.execCount = 1 ∧
      c.folded = some (.output (.payload "5000 + 2" (.num 5002)))) ∧
    (∃ c : CallRecord CalcOutput,
      ReachableCall (requiresApproval .calculate (.calc ⟨5000, 2, .plus⟩))
        (Calculate.execute ⟨5000, 2, .plus⟩) c ∧
      c.state = .rejected ∧ c.execCount = 0 ∧ c.folded = some .denied) ∧
    (∀ c : CallRecord CalcOutput,
      ReachableCall (requiresApproval .calculate (.calc ⟨5000, 2, .plus⟩))
        (Calculate.execute ⟨5000, 2, .plus⟩) c →
      c.state = .rejected → c.execCount = 0) := by
  have hneeded : requiresApproval .calculate (.calc ⟨5000, 2, .plus⟩) = true := by
    decide
  have hexec : Calculate.execute ⟨5000, 2, .plus⟩ =
      .payload "5000 + 2" (.num 5002) := by
    simp only [Calculate.execute, Calculate.ops, Calculate.expressionString]
    norm_num
    decide
  refine ⟨hneeded, hexec,
    ⟨⟨.outputAvailable, 1, true, true,
        some (.output (Calculate.execute ⟨5000, 2, .plus⟩))⟩,
      ?_, rfl, rfl, rfl, by rw [hexec]⟩,
    ⟨⟨.rejected, 0, true, false, some .denied⟩, ?_, rfl, rfl, rfl⟩, ?_⟩
  · exact
      Relation.ReflTransGen.tail
        (Relation.ReflTransGen.tail
          (Relation.ReflTransGen.tail
            (Relation.ReflTransGen.single (.stream _ rfl))
            (.gateRequest _ rfl hneeded))
          (.approve _ rfl))
        (.runApproved _ rfl)
  · exact
      Relation.ReflTransGen.tail
        (Relation.ReflTransGen.tail
          (Relation.ReflTransGen.single (.stream _ rfl))
          (.gateRequest _ rfl hneeded))
        (.reject _ rfl)
  · intro c hc hrej
    exact (callInvariant hc).1 (by rw [hrej]; intro h; cases h)

/-- C4: for every model behaviour, a turn's step count never exceeds
`maxSteps`, which this program fixes at 5; the turn — including one that
hits the cap — terminates normally with status `done`; and a turn whose
first generation step proposes no tool calls ends after that single step. -/
theorem spec_C4 (proposes : ℕ → Bool) :
    (runTurn proposes).stepCount ≤ maxSteps ∧
    maxSteps = 5 ∧
    (runTurn proposes).status = .done ∧
    (proposes 0 = false → (runTurn proposes).stepCount = 1) := by
  refine ⟨(runTurnAux_spec proposes maxSteps 0).1, rfl,
    (runTurnAux_spec proposes maxSteps 0).2, ?_⟩
  intro h
  simp [runTurn, maxSteps, runTurnAux, h]

/-- Witness for C4: a model that never proposes tool calls stops after one
step; a model that always proposes tool calls still stays within the cap
and ends with status `done`. -/
theorem spec_C4_witness :
    (runTurn fun _ => false).stepCount = 1 ∧
    (runTurn fun _ => true).stepCount ≤ maxSteps ∧
    (runTurn fun _ => true).status = .done :=
  ⟨(spec_C4 fun _ => false).2.2.2 rfl, (spec_C4 fun _ => true).1,
    (spec_C4 fun _ => true).2.2.1⟩

/-- C5: a call whose approval was resolved with `approved = false` never
causes the executor to run (its call count stays 0), and a call reaches
`output-available` only with the gate off or after passing through
`approved`. -/
theorem spec_C5 {α : Type} (needed : Bool) (result : α) (c : CallRecord α)
    (h : ReachableCall needed result c) :
    (c.state = .rejected → c.execCount = 0) ∧
    (c.state = .outputAvailable →
      needed = false ∨ c.wentThroughApproved = true) := by
  refine ⟨fun hr => (callInvariant h).1 ?_, (callInvariant h).2.2.1⟩
  rw [hr]
  intro hcontra
  cases hcontra

/-- Witness for C5: a concrete rejected call record, reachable by
stream → gate → reject, has executor call count 0. -/
theorem spec_C5_witness : rejectedDemo.execCount = 0 :=
  (spec_C5 true 0 rejectedDemo rejectedDemo_reachable).1 rfl

/-- C6: `getWeather` and `getUserTimezone` declare no approval predicate, so
the gate always answers false for them; for every call whose gate answers
false, `approval-requested` is never visited on any reachable record, and
the call can reach `output-available` with the executor's output folded. -/
theorem spec_C6 (α : Type) (result : α) :
    (∀ i : ToolInput, requiresApproval .getWeather i = false) ∧
    (∀ i : ToolInput, requiresApproval .getUserTimezone i = false) ∧
    (∀ (t : ToolName) (i : ToolInput), requiresApproval t i = false →
      (∀ c : CallRecord α,
        ReachableCall (requiresApproval t i) result c →
        c.visitedApprovalRequested = false) ∧
      (∃ c : CallRecord α,
        ReachableCall (requiresApproval t i) result c ∧
        c.state = .outputAvailable ∧ c.visitedApprovalRequested = false ∧
        c.folded = some (.output result))) := by
  refine ⟨fun _ => rfl, fun _ => rfl, fun t i h => ⟨?_, ?_⟩⟩
  · intro c hc
    exact (callInvariant hc).2.2.2 h
  · exact ⟨_,
      Relation.ReflTransGen.tail
        (Relation.ReflTransGen.single (.stream _ rfl))
        (.gateExec _ rfl h),
      rfl, rfl, rfl⟩

/-- Witness for C6: the `getWeather` call on `"Paris"` needs no approval and
reaches `output-available` without visiting `approval-requested`. -/
theorem spec_C6_witness :
    requiresApproval .getWeather (.weather "Paris") = false ∧
    ∃ c : CallRecord ℕ,
      ReachableCall (requiresApproval .getWeather (.weather "Paris")) 7 c ∧
      c.state = .outputAvailable ∧ c.visitedApprovalRequested = false := by
  refine ⟨rfl, ?_⟩
  obtain ⟨c, hr, hs, hv, -⟩ :=
    ((spec_C6 ℕ 7).2.2 .getWeather (.weather "Paris") rfl).2
  exact ⟨c, hr, hs, hv⟩

/-- Witness for C10: both random draws equal to 0 and city `"Paris"`. -/
theorem spec_C10_witness :
    (GetWeather.execute "Paris" 0 0).city = "Paris" ∧
    5 ≤ (GetWeather.execute "Paris" 0 0).temperature ∧
    (GetWeather.execute "Paris" 0 0).temperature ≤ 34 ∧
    (∃ c, (GetWeather.execute "Paris" 0 0).condition = some c ∧
      c ∈ conditions) ∧
    (GetWeather.execute "Paris" 0 0).unit = "celsius" :=
  spec_C10 "Paris" 0 0 (le_refl 0) zero_lt_one (le_refl 0) zero_lt_one
